import Mathlib

/-!
Shallow embedding of the `discovery` repository (Go): the peer-replication
node (`src/registry/node.go`) and the client resolver (`src/unnamed/part_000`,
package `naming`).  Pure data flow is modelled directly; the HTTP layer is
modelled by the requests a function emits and by response values passed in as
arguments.
-/

/-- Go type `model.Instance`: a registered process (spec section 3; fields used by
`node.go` and the naming client). `metadata` holds the JSON-marshalled form. -/
structure Instanc where
  zone : String
  env : String
  appID : String
  hostname : String
  addrs : List String
  status : Nat
  color : String
  version : String
  metadata : String
  regTimestamp : Int
  dirtyTimestamp : Int
  latestTimestamp : Int
deriving Repr, DecidableEq

/-- Go type `url.Values`, as an ordered list of key/value pairs. -/
abbrev Values := List (String × String)

/-- Go method `url.Values.Set`: replace every pair with the given key by the single new pair. -/
def setV (ps : Values) (k v : String) : Values :=
  ps.filter (fun p => p.1 != k) ++ [(k, v)]

/-- Go method `url.Values.Add`: append a pair without removing existing ones. -/
def addV (ps : Values) (k v : String) : Values :=
  ps ++ [(k, v)]

/-- All values stored under a key, in order. -/
def getAll (ps : Values) (k : String) : List String :=
  (ps.filter (fun p => p.1 == k)).map Prod.snd

/-- An HTTP request the embedded code emits: target URI and form/query values. -/
structure Request where
  uri : String
  params : Values
deriving Repr, DecidableEq

/-- Go type `model.Action` as dispatched on by `Node.call` in `src/registry/node.go`
(the `default` branch of the `switch` covers every other action, e.g. `Set`). -/
inductive GoAction where
  | register
  | renew
  | cancel
  | other
deriving Repr, DecidableEq

/-- Go type `registry.Node`: a peer node descriptor (`src/registry/node.go`). -/
structure Node where
  registerURL : String
  cancelURL : String
  renewURL : String
  setURL : String
  addr : String
  zone : String
  otherZone : Bool
deriving Repr, DecidableEq

/-- The form values built by `Node.call` (`src/registry/node.go` lines 87-113). -/
def Node.callParams (n : Node) (action : GoAction) (i : Instanc) : Values :=
  let params := setV (setV (setV (setV [] "zone" i.zone) "env" i.env) "appid" i.appID)
      "hostname" i.hostname
  let params :=
    if n.otherZone then setV params "replication" "false"
    else setV params "replication" "true"
  match action with
  | GoAction.register =>
      setV (setV (setV (setV (setV (setV (setV (setV params
        "addrs" (String.intercalate "," i.addrs))
        "status" (toString i.status))
        "color" i.color)
        "version" i.version)
        "metadata" i.metadata)
        "reg_timestamp" (toString i.regTimestamp))
        "dirty_timestamp" (toString i.dirtyTimestamp))
        "latest_timestamp" (toString i.latestTimestamp)
  | GoAction.renew => setV params "dirty_timestamp" (toString i.dirtyTimestamp)
  | GoAction.cancel => setV params "latest_timestamp" (toString i.latestTimestamp)
  | GoAction.other => params

/-- Requests emitted by `Node.Register`: one call to the register URL. -/
def Node.registerRequests (n : Node) (i : Instanc) : List Request :=
  [⟨n.registerURL, n.callParams GoAction.register i⟩]

/-- Requests emitted by `Node.Cancel`: one call to the cancel URL. -/
def Node.cancelRequests (n : Node) (i : Instanc) : List Request :=
  [⟨n.cancelURL, n.callParams GoAction.cancel i⟩]

/-- Requests emitted by `Node.Renew`.  The body of `Renew` in
`src/registry/node.go` (lines 83-85) is just `return`: it performs no call. -/
def Node.renewRequests (_n : Node) (_i : Instanc) : List Request := []

/-- Modelled from the spec: the integer wire codes of the error-code module
(`github.com/Bilibili/discovery/errors`, not under `src/`): `0` OK, `-304`
NotModified, `-404` NothingFound, `-409` Conflict (spec section 6). -/
def okCode : Int := 0

/-- Modelled from the spec: the NotModified wire code. -/
def notModifiedCode : Int := -304

/-- Modelled from the spec: the Conflict wire code. -/
def conflictCode : Int := -409

/-- The decoded `{code, data}` JSON body a peer answers with in `Node.call`. -/
structure PeerResponse where
  code : Int
  data : String
deriving Repr, DecidableEq

/-- Outcome of the response handling in `Node.call` (lines 114-128):
`conflict` carries the raw body that was unmarshalled into the caller's
record; `failed` returns the mapped error without touching the body. -/
inductive CallOutcome where
  | ok
  | conflict (body : String)
  | failed (code : Int)
deriving Repr, DecidableEq

/-- Response handling of `Node.call` (`src/registry/node.go` lines 122-127):
a non-zero code maps to an error via `errors.Int`; only `Conflict` makes the
code unmarshal `res.Data` into the caller-supplied record. -/
def callHandle (res : PeerResponse) : CallOutcome :=
  if res.code = 0 then CallOutcome.ok
  else if res.code = conflictCode then CallOutcome.conflict res.data
  else CallOutcome.failed res.code

/-- C1: the claim says `Renew` POSTs the instance's AppID, Hostname, Zone, Env
and DirtyTimestamp to `/discovery/renew`; in the code the body of
`Node.Renew` is empty (`return`), so no request at all is emitted, even
though the function's own doc comment says it sends the heartbeat and
`Node.call` has a prepared `model.Renew` branch. -/
theorem Node.renew_emits_no_request (n : Node) (i : Instanc) :
    Node.renewRequests n i = [] := rfl

/-- C3: every request built by `Node.call` carries `replication=true` iff the
node's `otherZone` flag is false (lines 93-97 of `src/registry/node.go`),
for every action and instance. -/
theorem Node.replication_flag (n : Node) (a : GoAction) (i : Instanc) :
    (getAll (n.callParams a i) "replication" = ["true"] ↔ n.otherZone = false) ∧
    (getAll (n.callParams a i) "replication" = ["false"] ↔ n.otherZone = true) := by
  cases hz : n.otherZone <;> cases a <;>
    simp [Node.callParams, setV, getAll, hz]

/-- C6: on a non-zero response code, `Node.call` unmarshals the data body and
returns the Conflict error exactly when the code is Conflict; any other
non-zero code is returned as an error without parsing the body
(`src/registry/node.go` lines 122-127). -/
theorem callHandle_conflict (res : PeerResponse) (h : res.code ≠ 0) :
    (res.code = conflictCode → callHandle res = CallOutcome.conflict res.data) ∧
    (res.code ≠ conflictCode → callHandle res = CallOutcome.failed res.code) := by
  constructor
  · intro hc
    simp [callHandle, conflictCode, h, hc]
  · intro hc
    rw [conflictCode] at hc
    simp [callHandle, conflictCode, h, hc]

/-- Witness for C6 at concrete responses. -/
theorem callHandle_conflict_witness :
    callHandle ⟨-409, "rec"⟩ = CallOutcome.conflict "rec" ∧
    callHandle ⟨-404, "rec"⟩ = CallOutcome.failed (-404) :=
  ⟨(callHandle_conflict ⟨-409, "rec"⟩ (by decide)).1 (by decide),
   (callHandle_conflict ⟨-404, "rec"⟩ (by decide)).2 (by decide)⟩

/-- Go type `naming.Config`: the client configuration (`src/unnamed/part_000` lines 47-53). -/
structure Config where
  domain : String
  zone : String
  env : String
  host : String
deriving Repr, DecidableEq

/-- Go type `naming.appData`: one app's poll payload (`src/unnamed/part_000` lines 55-58). -/
structure AppData where
  zoneInstances : List (String × List Instanc)
  lastTs : Int
deriving Repr, DecidableEq

/-- Go type `naming.appInfo`: per-app watch state.  `event` is the identity of the
app's event channel; `zoneIns` is the atomically stored snapshot (`none`
while nothing has been stored, so the Go type assertion fails). -/
structure AppInfo where
  event : Nat
  zoneIns : Option (List (String × List Instanc))
  lastTs : Int
deriving Repr, DecidableEq

/-- The mutable fields of `naming.Discovery` the claims are about.  `apps`
and `registry` model the Go maps as key-unique association structures;
`nextChan` supplies fresh event-channel identities. -/
structure DiscoveryState where
  c : Config
  apps : List (String × AppInfo)
  registry : List String
  lastHost : String
  nextChan : Nat
deriving Repr, DecidableEq

/-- Method `Discovery.Fetch` (`src/unnamed/part_000` lines 118-126): look up the
app, then type-assert the stored snapshot; `ok` is false when either step
fails. -/
def Fetch (st : DiscoveryState) (appID : String) :
    Option (List (String × List Instanc)) × Bool :=
  match st.apps.lookup appID with
  | none => (none, false)
  | some app =>
    match app.zoneIns with
    | none => (none, false)
    | some z => (some z, true)

/-- Method `Discovery.Watch` (`src/unnamed/part_000` lines 142-161): return the
existing event channel, or create the app entry with a fresh channel.
(The poll-cancellation side effect touches no state modelled here.) -/
def Watch (st : DiscoveryState) (appID : String) : DiscoveryState × Nat :=
  match st.apps.lookup appID with
  | some app => (st, app.event)
  | none =>
    let app : AppInfo := { event := st.nextChan, zoneIns := none, lastTs := 0 }
    ({ st with apps := st.apps ++ [(appID, app)], nextChan := st.nextChan + 1 },
     app.event)

/-- Method `Discovery.newParams` (`src/unnamed/part_000` lines 503-509). -/
def newParams (c : Config) : Values :=
  setV (setV (setV [] "zone" c.zone) "env" c.env) "hostname" c.host

/-- The form values of the self-registration POST built by
`Discovery.register` (`src/unnamed/part_000` lines 258-295). -/
def registerParams (c : Config) (ins : Instanc) : Values :=
  setV (setV (setV (setV (setV (setV (newParams c)
    "appid" ins.appID)
    "addrs" (String.intercalate "," ins.addrs))
    "color" ins.color)
    "version" ins.version)
    "status" "1")
    "metadata" ins.metadata

/-- Error results of `Discovery.Register`. -/
inductive RegErr where
  | duplication
  | ecode (code : Int)
deriving Repr, DecidableEq

/-- The synchronous part of `Discovery.Register` (`src/unnamed/part_000`
lines 183-202): the duplication check, the registration POST, and the
roll-back of `registry` when that POST fails.  `respCode` stands for the
code of the peer's `{code,message}` answer; the emitted requests are
returned so that "no HTTP request is made" is expressible. -/
def Register (st : DiscoveryState) (ins : Instanc) (respCode : Int) :
    DiscoveryState × Option RegErr × List Request :=
  if ins.appID ∈ st.registry then
    (st, some RegErr.duplication, [])
  else
    let st1 := { st with registry := ins.appID :: st.registry }
    let req : Request := ⟨"http://" ++ st.c.domain ++ "/discovery/register",
                          registerParams st.c ins⟩
    if respCode = okCode then (st1, none, [req])
    else ({ st1 with registry := st.registry }, some (RegErr.ecode respCode), [req])

/-- C7: `Register` on an already self-registered `AppID` returns
`ErrDuplication`, emits no HTTP request and leaves the state unchanged
(`src/unnamed/part_000` lines 183-192). -/
theorem Register_duplicate (st : DiscoveryState) (ins : Instanc) (respCode : Int)
    (h : ins.appID ∈ st.registry) :
    Register st ins respCode = (st, some RegErr.duplication, []) := by
  simp [Register, h]

/-- Witness for C7: a concrete client that already registered `"svc"`. -/
theorem Register_duplicate_witness :
    Register ⟨⟨"d", "z", "e", "h"⟩, [], ["svc"], "", 0⟩
        ⟨"z", "e", "svc", "h", [], 1, "", "", "", 0, 0, 0⟩ 0 =
      (⟨⟨"d", "z", "e", "h"⟩, [], ["svc"], "", 0⟩, some RegErr.duplication, []) :=
  Register_duplicate _ _ 0 (by decide)

/-- Looking a key up after appending it to a list where it was absent. -/
theorem lookup_append_of_none {β : Type} (l : List (String × β)) (k : String) (v : β)
    (h : l.lookup k = none) : (l ++ [(k, v)]).lookup k = some v := by
  induction l with
  | nil => simp [List.lookup]
  | cons p t ih =>
    rw [List.lookup] at h
    rw [List.cons_append, List.lookup]
    cases hk : (k == p.1) with
    | true => simp [hk] at h
    | false =>
      simp only [hk] at h ⊢
      exact ih h

/-- C8: `Watch` is idempotent — a second `Watch` on an already watched
`appID` returns the very channel the first call returned and leaves the
client state (in particular the app map) unchanged
(`src/unnamed/part_000` lines 142-161). -/
theorem Watch_idempotent (st : DiscoveryState) (appID : String) :
    Watch (Watch st appID).1 appID = ((Watch st appID).1, (Watch st appID).2) := by
  cases h : st.apps.lookup appID with
  | some app => simp [Watch, h]
  | none =>
    have h2 : (st.apps ++ [(appID, (⟨st.nextChan, none, 0⟩ : AppInfo))]).lookup appID
        = some ⟨st.nextChan, none, 0⟩ := lookup_append_of_none st.apps appID _ h
    simp [Watch, h, h2]

/-- C9: `Fetch` reports `ok = false` both for a never-watched app and for a
watched app whose snapshot has not been stored yet, and it never returns
`ok = true` together with an absent instance map
(`src/unnamed/part_000` lines 118-126). -/
theorem Fetch_before_snapshot (st : DiscoveryState) (appID : String) :
    (st.apps.lookup appID = none → Fetch st appID = (none, false)) ∧
    (∀ app, st.apps.lookup appID = some app → app.zoneIns = none →
      Fetch st appID = (none, false)) ∧
    ((Fetch st appID).2 = true → (Fetch st appID).1 ≠ none) := by
  refine ⟨fun h => by simp [Fetch, h], fun app h hz => by simp [Fetch, h, hz], ?_⟩
  cases h : st.apps.lookup appID with
  | none => simp [Fetch, h]
  | some app =>
    cases hz : app.zoneIns with
    | none => simp [Fetch, h, hz]
    | some z => simp [Fetch, h, hz]

/-- Witness for C9: an unwatched app, and a watched app with no snapshot. -/
theorem Fetch_before_snapshot_witness :
    Fetch ⟨⟨"d", "z", "e", "h"⟩, [], [], "", 0⟩ "svc" = (none, false) ∧
    Fetch ⟨⟨"d", "z", "e", "h"⟩, [("svc", ⟨0, none, 0⟩)], [], "", 1⟩ "svc"
      = (none, false) :=
  ⟨(Fetch_before_snapshot ⟨⟨"d", "z", "e", "h"⟩, [], [], "", 0⟩ "svc").1 (by decide),
   (Fetch_before_snapshot ⟨⟨"d", "z", "e", "h"⟩, [("svc", ⟨0, none, 0⟩)], [], "", 1⟩
      "svc").2.1 ⟨0, none, 0⟩ (by decide) rfl⟩

/-- The request-building half of `Discovery.polls` (`src/unnamed/part_000`
lines 416-452): detect a host change, zero every watched app's `lastTs`
baseline when it happened, record the new `lastHost`, and build the query
values — or build no request at all when nothing is watched. -/
def pollsPrepare (st : DiscoveryState) (host : String) : DiscoveryState × Option Values :=
  let apps1 :=
    if host != st.lastHost then
      st.apps.map (fun p => (p.1, { p.2 with lastTs := 0 }))
    else st.apps
  let st1 := { st with lastHost := host, apps := apps1 }
  let appIDs := apps1.map Prod.fst
  let lastTss := apps1.map (fun p => p.2.lastTs)
  if appIDs.isEmpty then (st1, none)
  else
    let params := setV (setV [] "env" st.c.env) "hostname" st.c.host
    let params := appIDs.foldl (fun ps a => addV ps "appid" a) params
    let params := lastTss.foldl (fun ps t => addV ps "latest_timestamp" (toString t)) params
    (st1, some params)

/-- Result of the response half of `Discovery.polls`. -/
inductive PollResult where
  | apps (data : List (String × AppData))
  | notModified
  | failed (code : Int)
  | serverErr
deriving Repr, DecidableEq

/-- The response-handling half of `Discovery.polls` (`src/unnamed/part_000`
lines 457-474): a non-OK code is an error unless it is NotModified; on OK,
any returned app with `LastTs == 0` turns the whole poll into ServerErr and
no data is delivered; otherwise the data is delivered. -/
def pollsHandle (code : Int) (data : List (String × AppData)) : PollResult :=
  if code = okCode then
    if data.any (fun p => p.2.lastTs == 0) then PollResult.serverErr
    else PollResult.apps data
  else if code = notModifiedCode then PollResult.notModified
  else PollResult.failed code

/-- Lemma: `getAll` distributes over concatenation of values. -/
theorem getAll_append (ps qs : Values) (k : String) :
    getAll (ps ++ qs) k = getAll ps k ++ getAll qs k := by
  simp [getAll, List.filter_append]

/-- A fold of `addV` with a fixed key appends the mapped pairs. -/
theorem foldl_addV (xs : List α) (ps : Values) (k : String) (f : α → String) :
    xs.foldl (fun ps a => addV ps k (f a)) ps = ps ++ xs.map (fun a => (k, f a)) := by
  induction xs generalizing ps with
  | nil => simp
  | cons x t ih =>
    rw [List.foldl_cons, ih]
    simp [addV]

/-- Lemma: `getAll` of a constant-key block under a different key is empty. -/
theorem getAll_map_ne (xs : List α) (f : α → String) (k k2 : String)
    (h : (k == k2) = false) : getAll (xs.map (fun a => (k, f a))) k2 = [] := by
  simp [getAll, List.filter_map, Function.comp_def, h]

/-- Lemma: `getAll` of a constant-key block under the same key gives the values. -/
theorem getAll_map_eq (xs : List α) (f : α → String) (k : String) :
    getAll (xs.map (fun a => (k, f a))) k = xs.map f := by
  simp [getAll, List.filter_map, Function.comp_def]

/-- C4: whenever `polls` targets a host different from `lastHost`, every
`latest_timestamp` query value it sends is `"0"` (`src/unnamed/part_000`
lines 422-434 zero every baseline before the values are collected). -/
theorem polls_host_change_zero_ts (st : DiscoveryState) (host : String) (ps : Values)
    (hne : host ≠ st.lastHost) (h : (pollsPrepare st host).2 = some ps) :
    ∀ s ∈ getAll ps "latest_timestamp", s = "0" := by
  have hb : (host != st.lastHost) = true := by simpa using hne
  rw [pollsPrepare] at h
  simp only [hb, if_true] at h
  split at h
  · simp at h
  · rw [Option.some_inj] at h
    subst h
    rw [foldl_addV, foldl_addV, getAll_append, getAll_append,
      getAll_map_ne _ _ _ _ (by rfl), getAll_map_eq]
    intro s hs
    simp only [List.append_nil, List.mem_append] at hs
    rcases hs with hs | hs
    · simp [setV, getAll] at hs
    · rw [List.map_map, List.map_map] at hs
      simp only [List.mem_map, Function.comp] at hs
      obtain ⟨p, _, hp⟩ := hs
      exact hp.symm

/-- Witness for C4: one watched app with baseline 7, host changes from
`"a"` to `"b"`; the single outgoing `latest_timestamp` is `"0"`. -/
theorem polls_host_change_zero_ts_witness :
    (getAll ((pollsPrepare ⟨⟨"d", "z", "e", "h"⟩, [("svc", ⟨0, none, 7⟩)], [], "a", 1⟩
      "b").2.getD []) "latest_timestamp").headI = "0" :=
  polls_host_change_zero_ts ⟨⟨"d", "z", "e", "h"⟩, [("svc", ⟨0, none, 7⟩)], [], "a", 1⟩
    "b"
    ((pollsPrepare ⟨⟨"d", "z", "e", "h"⟩, [("svc", ⟨0, none, 7⟩)], [], "a", 1⟩
      "b").2.getD [])
    (by decide) (by decide) _ (by decide)

/-- C5: a poll response with code OK in which some returned app has
`LastTs == 0` makes `polls` return ServerErr and deliver no app data
(`src/unnamed/part_000` lines 464-471: the loop errors out before
`apps = res.Data` is reached). -/
theorem polls_lastTs_zero_serverErr (data : List (String × AppData))
    (h : ∃ p ∈ data, p.2.lastTs = 0) :
    pollsHandle okCode data = PollResult.serverErr ∧
    ∀ d, pollsHandle okCode data ≠ PollResult.apps d := by
  have hany : data.any (fun p => p.2.lastTs == 0) = true := by
    obtain ⟨p, hp, h0⟩ := h
    exact List.any_eq_true.mpr ⟨p, hp, by simp [h0]⟩
  constructor
  · simp [pollsHandle, hany]
  · intro d
    simp [pollsHandle, hany]

/-- Witness for C5: one app with `LastTs == 0` in an OK response. -/
theorem polls_lastTs_zero_serverErr_witness :
    pollsHandle okCode [("svc", ⟨[("z1", [])], 0⟩)] = PollResult.serverErr ∧
    ∀ d, pollsHandle okCode [("svc", ⟨[("z1", [])], 0⟩)] ≠ PollResult.apps d :=
  polls_lastTs_zero_serverErr [("svc", ⟨[("z1", [])], 0⟩)]
    ⟨("svc", ⟨[("z1", [])], 0⟩), by decide, rfl⟩

/-- The total instance count `broadcast` accumulates for one app
(`src/unnamed/part_000` lines 479-485). -/
def sumInstances (z : List (String × List Instanc)) : Nat :=
  (z.map (fun p => p.2.length)).sum

/-- The zone map after `broadcast` deleted every zone with an empty
instance list (`src/unnamed/part_000` lines 480-483). -/
def pruneZones (z : List (String × List Instanc)) : List (String × List Instanc) :=
  z.filter (fun p => !p.2.isEmpty)

/-- Update the entry stored under a key of the app map. -/
def updateApp (apps : List (String × AppInfo)) (k : String) (f : AppInfo → AppInfo) :
    List (String × AppInfo) :=
  apps.map (fun p => bif p.1 == k then (p.1, f p.2) else p)

/-- One iteration of `Discovery.broadcast` (`src/unnamed/part_000` lines
478-500): skip the app when the pruned payload holds no instance, otherwise
store the new snapshot and timestamp into the watched entry (nothing happens
when the app is not watched).  The non-blocking event send touches no state
modelled here. -/
def broadcastOne (st : DiscoveryState) (appID : String) (v : AppData) : DiscoveryState :=
  if sumInstances v.zoneInstances = 0 then st
  else
    match st.apps.lookup appID with
    | none => st
    | some _ =>
      { st with apps := updateApp st.apps appID (fun app =>
          { app with lastTs := v.lastTs, zoneIns := some (pruneZones v.zoneInstances) }) }

/-- Method `Discovery.broadcast` over the whole poll payload. -/
def broadcast (st : DiscoveryState) (data : List (String × AppData)) : DiscoveryState :=
  data.foldl (fun s p => broadcastOne s p.1 p.2) st

/-- Lemma: `updateApp` under a different key does not change a lookup. -/
theorem lookup_updateApp_ne (apps : List (String × AppInfo)) (k : String)
    (f : AppInfo → AppInfo) (appID : String) (h : appID ≠ k) :
    (updateApp apps k f).lookup appID = apps.lookup appID := by
  induction apps with
  | nil => rfl
  | cons p t ih =>
    obtain ⟨a, b⟩ := p
    rw [updateApp, List.map_cons]
    cases hp : (a == k) with
    | true =>
      have ha : a = k := by simpa using hp
      subst ha
      have hne : (appID == a) = false := by simpa using h
      simp only [cond_true, List.lookup, hne]
      simpa [updateApp] using ih
    | false =>
      simp only [cond_false, List.lookup]
      cases hq : (appID == a) with
      | true => rfl
      | false => simpa [updateApp] using ih

/-- Lemma: `updateApp` at the looked-up key applies the update to the lookup. -/
theorem lookup_updateApp_eq (apps : List (String × AppInfo)) (k : String)
    (f : AppInfo → AppInfo) :
    (updateApp apps k f).lookup k = (apps.lookup k).map f := by
  induction apps with
  | nil => rfl
  | cons p t ih =>
    obtain ⟨a, b⟩ := p
    rw [updateApp, List.map_cons]
    cases hp : (a == k) with
    | true =>
      have ha : a = k := by simpa using hp
      subst ha
      simp only [cond_true, List.lookup, beq_self_eq_true]
      rfl
    | false =>
      have hq : (k == a) = false := by
        rw [beq_eq_false_iff_ne] at hp ⊢
        exact fun he => hp he.symm
      simp only [cond_false, List.lookup, hq]
      simpa [updateApp] using ih

/-- Lemma: `broadcastOne` for a different app does not change a lookup. -/
theorem broadcastOne_lookup_ne (st : DiscoveryState) (k : String) (w : AppData)
    (appID : String) (h : appID ≠ k) :
    (broadcastOne st k w).apps.lookup appID = st.apps.lookup appID := by
  unfold broadcastOne
  split
  · rfl
  · cases hk : st.apps.lookup k with
    | none => rfl
    | some app => simp [lookup_updateApp_ne st.apps k _ appID h]

/-- Lemma: `broadcastOne` at the app itself: no change on a zero count, otherwise
the snapshot and timestamp of the watched entry are replaced. -/
theorem broadcastOne_lookup_self (st : DiscoveryState) (appID : String) (v : AppData) :
    (broadcastOne st appID v).apps.lookup appID =
      if sumInstances v.zoneInstances = 0 then st.apps.lookup appID
      else (st.apps.lookup appID).map (fun app =>
        { app with lastTs := v.lastTs, zoneIns := some (pruneZones v.zoneInstances) }) := by
  unfold broadcastOne
  split
  · simp only [*, if_true]
  · cases hk : st.apps.lookup appID with
    | none => simp [hk, *]
    | some app => simp [hk, lookup_updateApp_eq st.apps appID, *]

/-- Lemma: `broadcast` does not touch apps absent from the poll payload. -/
theorem broadcast_lookup_not_mem (data : List (String × AppData))
    (st : DiscoveryState) (appID : String) (h : appID ∉ data.map Prod.fst) :
    (broadcast st data).apps.lookup appID = st.apps.lookup appID := by
  induction data generalizing st with
  | nil => rfl
  | cons p rest ih =>
    simp only [List.map_cons, List.mem_cons, not_or] at h
    rw [broadcast, List.foldl_cons]
    exact (ih _ h.2).trans (broadcastOne_lookup_ne st p.1 p.2 appID h.1)

/-- The effect of a whole `broadcast` on one app of the payload. -/
theorem broadcast_lookup_mem (data : List (String × AppData)) (st : DiscoveryState)
    (appID : String) (v : AppData) (hnd : (data.map Prod.fst).Nodup)
    (hmem : (appID, v) ∈ data) :
    (broadcast st data).apps.lookup appID =
      if sumInstances v.zoneInstances = 0 then st.apps.lookup appID
      else (st.apps.lookup appID).map (fun app =>
        { app with lastTs := v.lastTs, zoneIns := some (pruneZones v.zoneInstances) }) := by
  induction data generalizing st with
  | nil => simp at hmem
  | cons p rest ih =>
    rw [List.map_cons, List.nodup_cons] at hnd
    rw [broadcast, List.foldl_cons]
    rcases List.mem_cons.mp hmem with hhead | htail
    · subst hhead
      exact (broadcast_lookup_not_mem rest (broadcastOne st appID v) appID hnd.1).trans
        (broadcastOne_lookup_self st appID v)
    · have hne : appID ≠ p.1 := by
        intro he
        exact hnd.1 (he ▸ List.mem_map_of_mem Prod.fst htail)
      exact (ih (broadcastOne st p.1 p.2) hnd.2 htail).trans
        (by rw [broadcastOne_lookup_ne st p.1 p.2 appID hne])

/-- C2 (amended): for a watched app whose poll payload carries at least one
instance after empty zones are dropped, `broadcast` sets `lastTs` to
`AppData.LastTs` and `Fetch` afterwards returns `AppData.ZoneInstances`
with the empty zones removed; a payload with a zero total instance count
leaves the app's state unchanged (`src/unnamed/part_000` lines 477-501 and
118-126). -/
theorem broadcast_fetch (st : DiscoveryState) (data : List (String × AppData))
    (appID : String) (v : AppData) (app : AppInfo)
    (hnd : (data.map Prod.fst).Nodup) (hmem : (appID, v) ∈ data)
    (happ : st.apps.lookup appID = some app) :
    (sumInstances v.zoneInstances ≠ 0 →
      (broadcast st data).apps.lookup appID =
        some { app with lastTs := v.lastTs, zoneIns := some (pruneZones v.zoneInstances) } ∧
      Fetch (broadcast st data) appID = (some (pruneZones v.zoneInstances), true)) ∧
    (sumInstances v.zoneInstances = 0 →
      (broadcast st data).apps.lookup appID = some app) := by
  have hlu := broadcast_lookup_mem data st appID v hnd hmem
  constructor
  · intro hc
    rw [if_neg hc, happ, Option.map_some'] at hlu
    refine ⟨hlu, ?_⟩
    unfold Fetch
    rw [hlu]
  · intro hc
    rw [hlu, if_pos hc, happ]

/-- A concrete instance for the C2 scenarios. -/
def exInst : Instanc := ⟨"z1", "e", "svc", "h1", ["http://x"], 1, "", "", "", 1, 2, 3⟩

/-- A concrete client state watching `"svc"` with no snapshot yet. -/
def exWatch : DiscoveryState := ⟨⟨"d", "z", "e", "h"⟩, [("svc", ⟨0, none, 0⟩)], [], "", 1⟩

/-- A payload with one populated zone and one empty zone. -/
def exDataMixed : AppData := ⟨[("z1", [exInst]), ("z2", [])], 5⟩

/-- A payload whose zones are all empty. -/
def exDataEmpty : AppData := ⟨[("z2", [])], 7⟩

/-- Counterexample to C2 as stated: after a successful poll delivering
`exDataMixed` for the watched app, `Fetch` does not return exactly
`AppData.ZoneInstances` (the empty zone was dropped); and after one
delivering `exDataEmpty`, `lastTs` does not become `AppData.LastTs`
(the whole update is skipped). -/
theorem broadcast_exactness_fails :
    (Fetch (broadcast exWatch [("svc", exDataMixed)]) "svc").1 ≠
        some exDataMixed.zoneInstances ∧
    ((broadcast exWatch [("svc", exDataEmpty)]).apps.lookup "svc").map AppInfo.lastTs ≠
        some exDataEmpty.lastTs := by
  decide

/-- Witness for the amended C2 at a concrete watched app and payload. -/
theorem broadcast_fetch_witness :
    Fetch (broadcast exWatch [("svc", exDataMixed)]) "svc" =
        (some [("z1", [exInst])], true) ∧
    (broadcast exWatch [("svc", exDataEmpty)]).apps.lookup "svc" =
        some ⟨0, none, 0⟩ := by
  refine ⟨?_, ?_⟩
  · have h := (broadcast_fetch exWatch [("svc", exDataMixed)] "svc" exDataMixed
      ⟨0, none, 0⟩ (by decide) (by decide) (by decide)).1 (by decide)
    exact h.2.trans (by decide)
  · exact (broadcast_fetch exWatch [("svc", exDataEmpty)] "svc" exDataEmpty
      ⟨0, none, 0⟩ (by decide) (by decide) (by decide)).2 (by decide)

/-- Swapping the elements at two positions of a list, the effect of the
`swap` callback `serverproc` passes to `shuffle` (`src/unnamed/part_000`
lines 365-367); identity when either index is out of range. -/
def swapList (l : List α) (i j : Nat) : List α :=
  match l.get? i, l.get? j with
  | some a, some b => (l.set i b).set j a
  | some _, none => l
  | none, _ => l

/-- The Fisher-Yates swap sequence of `shuffle` (`src/unnamed/part_000`
lines 527-535): the counter runs from `n-1` down to `1`, and the random
partner of index `i` is a value in `[0, i]` — here `r i % (i+1)` for an
arbitrary generator `r`, covering both the `Int63n` and the `Int31n` loop. -/
def shuffleSwaps (r : Nat → Nat) : Nat → List α → List α
  | 0, l => l
  | i+1, l => shuffleSwaps r i (swapList l (i+1) (r (i+1) % (i+2)))

/-- Function `shuffle` (`src/unnamed/part_000` lines 516-536): the `n < 0` guard
aborts (modelled as `none`); otherwise the swap loop runs from `n-1` down. -/
def shuffleGo (r : Nat → Nat) (n : Int) (l : List String) : Option (List String) :=
  if n < 0 then none
  else some (shuffleSwaps r (n.toNat - 1) l)

/-- Replacing a looked-up element and consing it in front permutes. -/
theorem cons_set_perm (t : List α) (j : Nat) (a b : α) (h : t.get? j = some b) :
    (b :: t.set j a).Perm (a :: t) := by
  induction t generalizing j with
  | nil => simp at h
  | cons c t ih =>
    cases j with
    | zero =>
      obtain rfl : b = c := by simpa using h.symm
      exact List.Perm.swap a b t
    | succ v =>
      have hv : t.get? v = some b := by simpa using h
      have h1 : (b :: c :: t.set v a).Perm (c :: b :: t.set v a) := List.Perm.swap c b _
      have h2 : (c :: b :: t.set v a).Perm (c :: a :: t) := List.Perm.cons c (ih v hv)
      have h3 : (c :: a :: t).Perm (a :: c :: t) := List.Perm.swap a c t
      exact (h1.trans h2).trans h3

/-- A pairwise in-range swap through two `set`s permutes. -/
theorem set_set_perm (l : List α) (i j : Nat) (a b : α)
    (hi : l.get? i = some a) (hj : l.get? j = some b) :
    ((l.set i b).set j a).Perm l := by
  induction l generalizing i j with
  | nil => simp at hi
  | cons c t ih =>
    cases i with
    | zero =>
      obtain rfl : a = c := by simpa using hi.symm
      cases j with
      | zero =>
        obtain rfl : b = a := by simpa using hj.symm
        exact List.Perm.refl _
      | succ v =>
        have hv : t.get? v = some b := by simpa using hj
        exact cons_set_perm t v a b hv
    | succ u =>
      have hu : t.get? u = some a := by simpa using hi
      cases j with
      | zero =>
        obtain rfl : b = c := by simpa using hj.symm
        exact cons_set_perm t u b a hu
      | succ v =>
        have hv : t.get? v = some b := by simpa using hj
        exact List.Perm.cons c (ih u v hu hv)

/-- Each `swap` of the shuffle is a permutation of the list. -/
theorem swapList_perm (l : List α) (i j : Nat) : (swapList l i j).Perm l := by
  unfold swapList
  cases hi : l.get? i with
  | none => exact List.Perm.refl l
  | some a =>
    cases hj : l.get? j with
    | none => exact List.Perm.refl l
    | some b => exact set_set_perm l i j a b hi hj

/-- The whole swap sequence is a permutation of the input list. -/
theorem shuffleSwaps_perm (r : Nat → Nat) (n : Nat) (l : List α) :
    (shuffleSwaps r n l).Perm l := by
  induction n generalizing l with
  | zero => exact List.Perm.refl l
  | succ i ih =>
    exact (ih _).trans (swapList_perm l (i + 1) (r (i + 1) % (i + 2)))

/-- C10: `shuffle` aborts exactly when `n < 0`; on the node list of
`serverproc` (called with `n = len(nodes) ≥ 0`, hence never aborting) the
swaps only exchange in-range elements, so the shuffled list is a
permutation — the same multiset — of the addresses `/discovery/nodes`
returned (`src/unnamed/part_000` lines 354-368 and 516-536). -/
theorem shuffle_permutes (r : Nat → Nat) (l : List String) :
    (∀ n : Int, shuffleGo r n l = none ↔ n < 0) ∧
    ∃ l2, shuffleGo r (Int.ofNat l.length) l = some l2 ∧
      Multiset.ofList l2 = Multiset.ofList l := by
  constructor
  · intro n
    constructor
    · intro h
      by_contra hn
      simp [shuffleGo, hn] at h
    · intro h
      simp [shuffleGo, h]
  · refine ⟨shuffleSwaps r (l.length - 1) l, ?_, ?_⟩
    · have hn : ¬ (Int.ofNat l.length < 0) := by
        simp
      simp [shuffleGo, hn]
    · exact Quot.sound (shuffleSwaps_perm r (l.length - 1) l)
